import Mathlib

/-!
Shallow embedding of `alertness/pvt.py` (alertness-ubicomp-2016).

Tables are lists of rows; numeric values (response times, user ids and
session ids alike) are modelled as exact rationals.  Division by zero
follows the Lean convention `x / 0 = 0`; the places where the Python code
would produce a float `NaN` (sample standard deviation of fewer than two
values, mean of an empty column) are each noted at the definition and are
observationally equivalent here: every comparison against a `NaN` bound is
false in Python, and the corresponding comparison against the degenerate
`0` bound is false in the embedding.
-/

/-- Model of `np.mean`: sum divided by length (`0` on the empty list,
where numpy would produce `NaN`; no claim evaluates the mean of an empty
column). -/
def npMean (l : List ℚ) : ℚ := l.sum / (l.length : ℚ)

/-- Model of `np.median`: sort ascending; the middle element when the
length is odd, the average of the two middle elements when it is even. -/
def npMedian (l : List ℚ) : ℚ :=
  let s := List.insertionSort (· ≤ ·) l
  if l.length % 2 = 1 then s.getD (l.length / 2) 0
  else (s.getD (l.length / 2 - 1) 0 + s.getD (l.length / 2) 0) / 2

/-- Square of pandas `Series.std()` (sample standard deviation, one delta
degree of freedom): sum of squared deviations from the mean divided by
`n - 1`.  For `n ≤ 1` pandas yields `NaN`; here the division by zero
yields `0`, which below makes the same rows pass the strict window test
as `NaN` does in pandas (none). -/
def sampleVar (col : List ℚ) : ℚ :=
  ((col.map (fun z => (z - npMean col) ^ 2)).sum) / ((col.length : ℚ) - 1)

/-- Embedding of `sd_based_outlier_filtering` (pvt.py lines 41-43):
`threshold = col.std() * factor`, and a value `z` is kept iff
`mean - threshold < z < mean + threshold`.  The standard deviation is the
square root of `sampleVar`, which is irrational in general, so the window
test is encoded in exact rational arithmetic by the equivalent condition
`0 ≤ factor ∧ (z - mean)² < factor² * sampleVar`; the equivalence with the
real-number window `mean - factor * sqrt(var) < z < mean + factor * sqrt(var)`
for every rational `factor` (including negative ones, where both sides are
false) is proved in `sd_window_encoding` below. -/
def sd_based_outlier_filtering (col : List ℚ) (factor : ℚ) : List Bool :=
  col.map (fun z =>
    decide (0 ≤ factor ∧ (z - npMean col) ^ 2 < factor ^ 2 * sampleVar col))

/-- Boolean-mask row selection `df[mask]`: keep the rows whose mask entry is
`true` (pandas boolean indexing; masks produced by the code always have
exactly the length of the table). -/
def filterMask {α : Type} : List α → List Bool → List α
  | [], _ => []
  | _ :: _, [] => []
  | a :: as, b :: bs => if b then a :: filterMask as bs else filterMask as bs

/-- The recursion of `outlier_filtering` (pvt.py lines 79-92), written
structurally on an explicit depth bound so that it evaluates by kernel
reduction: each recursive round is taken on a strictly smaller table, so
any fuel exceeding the row count is never exhausted
(`outlierFilterAux_fuel_irrel`), and `outlier_filtering` below satisfies
exactly the source's recursion equation (`outlier_filtering_unfold`). -/
def outlierFilterAux {α : Type} (colOf : α → ℚ)
    (filtering_f : List ℚ → List Bool) (is_recursive : Bool) :
    ℕ → List α → List α
  | 0, df => df
  | fuel + 1, df =>
    let df2 := filterMask df (filtering_f (df.map colOf))
    if is_recursive then
      if df.length = df2.length then df2
      else outlierFilterAux colOf filtering_f is_recursive fuel df2
    else df2

/-- Embedding of `outlier_filtering` (pvt.py lines 46-92).  The column
access `df[filtering_col]` is modelled by a projection `colOf` out of each
row.  In recursive mode the function returns as soon as a round keeps
every row, and otherwise recurses on the strictly smaller filtered table
(the depth bound `df.length + 1` therefore never runs out, mirroring the
termination argument in the comment at lines 84-85 of the source). -/
def outlier_filtering {α : Type} (df : List α) (colOf : α → ℚ)
    (filtering_f : List ℚ → List Bool) (is_recursive : Bool) : List α :=
  outlierFilterAux colOf filtering_f is_recursive (df.length + 1) df

/-- Model of `DataFrame.groupby(key)` with the default `sort=True`: the distinct
key values in ascending order, each paired with the rows carrying that
key in their original order. -/
def groupby {α : Type} (key : α → ℚ) (l : List α) : List (ℚ × List α) :=
  (List.insertionSort (· ≤ ·) (l.map key).dedup).map
    (fun k => (k, l.filter (fun x => key x = k)))

/-- One raw measurement row (and also one aggregated session-score row):
columns `user_id`, `session`, `response_time` under their default
names. -/
structure MRow where
  user_id : ℚ
  session : ℚ
  response_time : ℚ
deriving DecidableEq

/-- The mapping from statistic names to aggregation functions used by the
source (`np.median` for "median", `np.mean` for "mean"); used only to
state theorems uniformly in the statistic name. -/
def statFn (s : String) : List ℚ → ℚ :=
  if s = "median" then npMedian else if s = "mean" then npMean else fun _ => 0

/-- The nested grouping loop of `get_pvt_score_per_session` (pvt.py lines
145-154): group by user id, then by session id, and emit one row per
(user, session) group whose response value is `func` of the group's
response times. -/
def gpssCore (df : List MRow) (func : List ℚ → ℚ) : List MRow :=
  ((groupby MRow.user_id df).map (fun kv =>
    (groupby MRow.session kv.2).map (fun kv1 =>
      { user_id := kv.1, session := kv1.1,
        response_time := func (kv1.2.map MRow.response_time) }))).flatten

/-- Embedding of `get_pvt_score_per_session` (pvt.py lines 95-154) at the
default column names; the `ValueError` raised for an unknown statistic
name becomes `Except.error` carrying the same message. -/
def get_pvt_score_per_session (df : List MRow) (scoring_f : String) :
    Except String (List MRow) :=
  if scoring_f = "median" then Except.ok (gpssCore df npMedian)
  else if scoring_f = "mean" then Except.ok (gpssCore df npMean)
  else Except.error ("Unknown function: " ++ scoring_f)

/-- The grouped baseline computation of `get_relative_response_time`
(pvt.py lines 199-202): the response series, tagged with its positional
index, is grouped by user id, and each group of values `x` is mapped to
`100 * (func x - x) / func x`.  The result is the returned series as a
list of (row index, rrt) pairs, which models the index alignment pandas
performs when the series is later assigned to a column. -/
def grrtCore (df : List MRow) (func : List ℚ → ℚ) : List (ℕ × ℚ) :=
  ((groupby (fun p => p.2.user_id) df.enum).map (fun kv =>
    kv.2.map (fun p =>
      (p.1, 100 * (func (kv.2.map (fun q => q.2.response_time)) - p.2.response_time)
              / func (kv.2.map (fun q => q.2.response_time)))))).flatten

/-- Embedding of `get_relative_response_time` (pvt.py lines 157-202) at
the default column names.  Note the source checks "mean" before
"median" here (the opposite order of `get_pvt_score_per_session`). -/
def get_relative_response_time (df : List MRow) (scoring_f : String) :
    Except String (List (ℕ × ℚ)) :=
  if scoring_f = "mean" then Except.ok (grrtCore df npMean)
  else if scoring_f = "median" then Except.ok (grrtCore df npMedian)
  else Except.error ("Unknown function: " ++ scoring_f)

/-- Index alignment: find the value a series associates with a given row
index (pandas aligns a series to a data frame by index label when it is
assigned as a column). -/
def alignLookup (i : ℕ) : List (ℕ × ℚ) → Option ℚ
  | [] => none
  | (j, v) :: rest => if i = j then some v else alignLookup i rest

/-- One output row of the pipeline: a session score together with its
`rrt` column. -/
structure RRow where
  user_id : ℚ
  session : ℚ
  response_time : ℚ
  rrt : ℚ
deriving DecidableEq

/-- Embedding of `process_pvt` (pvt.py lines 205-275) at the default
column names: drop non-positive responses, aggregate per session, when a
filtering factor is given filter each user's group of session scores
recursively with the SD window predicate and concatenate the groups (in
the sorted group order `pd.concat` receives them), then attach the `rrt`
column by aligning the series returned by the baseline normalization with
the row indices of the filtered table. -/
def process_pvt (df : List MRow) (filtering_factor : Option ℚ)
    (session_f : String) (baseline_f : String) :
    Except String (List RRow) := do
  let df1 := df.filter (fun r => 0 < r.response_time)
  let pvt ← get_pvt_score_per_session df1 session_f
  let r := match filtering_factor with
    | some factor =>
      ((groupby MRow.user_id pvt).map (fun kv =>
        outlier_filtering kv.2 MRow.response_time
          (fun c => sd_based_outlier_filtering c factor) true)).flatten
    | none => pvt
  let rrt ← get_relative_response_time r baseline_f
  pure (r.enum.map (fun p =>
    { user_id := p.2.user_id, session := p.2.session,
      response_time := p.2.response_time,
      rrt := (alignLookup p.1 rrt).getD 0 }))

/-- The intermediate table `r` of `process_pvt` when a filtering factor
is supplied (pvt.py lines 260-268): the per-user groups of session
scores, each filtered recursively with the SD window, concatenated in
group order.  Named here so that lemmas about the pipeline can refer to
it. -/
def filteredScores (df : List MRow) (factor : ℚ) (sf : String) : List MRow :=
  ((groupby MRow.user_id
      (gpssCore (df.filter (fun r => decide (0 < r.response_time)))
        (statFn sf))).map (fun kv =>
    outlier_filtering kv.2 MRow.response_time
      (fun c => sd_based_outlier_filtering c factor) true)).flatten

/-! ### Named-column model

The functions above fix the default column names.  `process_pvt` is
additionally modelled over tables with explicit, string-named columns, in
order to settle the claim about column-name configuration: the source
honors `response_c` and `user_c` in some places (pvt.py lines 256, 265,
266) but calls `get_pvt_score_per_session` (line 258) and
`get_relative_response_time` (line 273) without forwarding any column
names, so those calls look up the default names. -/

/-- A data frame with named columns: a column-name list and rows of
values in column order.  A column access on a missing name is the pandas
`KeyError`. -/
structure Table where
  cols : List String
  rows : List (List ℚ)
deriving DecidableEq

/-- Column access `df[c]`: the list of the column's values, or a `KeyError` when the
name is absent. -/
def Table.getCol (t : Table) (c : String) : Except String (List ℚ) :=
  match t.cols.findIdx? (fun s => s = c) with
  | some i => Except.ok (t.rows.map (fun r => r.getD i 0))
  | none => Except.error ("KeyError: " ++ c)

/-- Embedding of `get_pvt_score_per_session` over a named-column table, with all four
of its keyword parameters explicit (pvt.py lines 95-154): check the
statistic name first, then group by the user column, within each group by
the session column, and aggregate the response column of each subgroup. -/
def gpssNamed (df : Table) (scoring_f response_c session_c user_c : String) :
    Except String Table := do
  let func ←
    if scoring_f = "median" then Except.ok npMedian
    else if scoring_f = "mean" then Except.ok npMean
    else Except.error ("Unknown function: " ++ scoring_f)
  let uvals ← df.getCol user_c
  let parts ← (groupby Prod.fst (uvals.zip df.rows)).mapM (fun kv => do
    let sub : Table := ⟨df.cols, kv.2.map Prod.snd⟩
    let svals ← sub.getCol session_c
    (groupby Prod.fst (svals.zip sub.rows)).mapM (fun kv1 => do
      let sub1 : Table := ⟨df.cols, kv1.2.map Prod.snd⟩
      let rvals ← sub1.getCol response_c
      pure [kv.1, kv1.1, func rvals]))
  pure ⟨[user_c, session_c, response_c], parts.flatten⟩

/-- Embedding of `get_relative_response_time` over a named-column table (pvt.py lines
157-202): check the statistic name ("mean" first here), look up the
response column and then the user column, group the response series by
the user values and return the per-row series of relative response
times, keyed by row index. -/
def grrtNamed (df : Table) (scoring_f user_c response_c : String) :
    Except String (List (ℕ × ℚ)) := do
  let func ←
    if scoring_f = "mean" then Except.ok npMean
    else if scoring_f = "median" then Except.ok npMedian
    else Except.error ("Unknown function: " ++ scoring_f)
  let rvals ← df.getCol response_c
  let uvals ← df.getCol user_c
  pure (((groupby Prod.fst (uvals.zip rvals.enum)).map (fun kv =>
    kv.2.map (fun p =>
      (p.2.1, 100 * (func (kv.2.map (fun q => q.2.2)) - p.2.2)
                / func (kv.2.map (fun q => q.2.2)))))).flatten)

/-- The recursion of `outlier_filtering` over a named-column table, on a
depth bound as in `outlierFilterAux`; the filtering column is looked up
by name on every round, as the source does at line 79. -/
def outlierFilterNamedAux (filtering_col : String)
    (filtering_f : List ℚ → List Bool) (is_recursive : Bool) :
    ℕ → Table → Except String Table
  | 0, df => Except.ok df
  | fuel + 1, df =>
    match df.getCol filtering_col with
    | Except.error e => Except.error e
    | Except.ok col =>
      let df2 : Table := ⟨df.cols, filterMask df.rows (filtering_f col)⟩
      if is_recursive then
        if df.rows.length = df2.rows.length then Except.ok df2
        else outlierFilterNamedAux filtering_col filtering_f is_recursive fuel df2
      else Except.ok df2

/-- Embedding of `outlier_filtering` over a named-column table (pvt.py lines 46-92). -/
def outlier_filteringNamed (df : Table) (filtering_col : String)
    (filtering_f : List ℚ → List Bool) (is_recursive : Bool) :
    Except String Table :=
  outlierFilterNamedAux filtering_col filtering_f is_recursive
    (df.rows.length + 1) df

/-- Embedding of `process_pvt` (pvt.py lines 205-275) over a named-column
table, faithful to which calls forward the configured column names:
line 256 filters on `response_c`; line 258 calls
`get_pvt_score_per_session` with only `scoring_f`, so that call uses the
default names "response_time"/"session"/"user_id"; lines 265-267 group by
`user_c` and filter on `response_c`; line 273 calls
`get_relative_response_time` with only `scoring_f`, so it uses the
default names. -/
def process_pvt_named (df : Table) (response_c user_c : String)
    (filtering_factor : Option ℚ) (session_f baseline_f : String) :
    Except String Table := do
  let rc ← df.getCol response_c
  let df1 : Table := ⟨df.cols, filterMask df.rows (rc.map (fun z => decide (0 < z)))⟩
  let pvt ← gpssNamed df1 session_f "response_time" "session" "user_id"
  let r ← match filtering_factor with
    | some factor => do
      let uvals ← pvt.getCol user_c
      let parts ← (groupby Prod.fst (uvals.zip pvt.rows)).mapM (fun kv =>
        outlier_filteringNamed ⟨pvt.cols, kv.2.map Prod.snd⟩ response_c
          (fun c => sd_based_outlier_filtering c factor) true)
      pure (⟨pvt.cols, (parts.map Table.rows).flatten⟩ : Table)
    | none => pure pvt
  let rrt ← grrtNamed r baseline_f "user_id" "response_time"
  pure ⟨r.cols ++ ["rrt"], r.rows.enum.map (fun p =>
    p.2 ++ [(alignLookup p.1 rrt).getD 0])⟩

/-! ### Lemmas about boolean-mask filtering and the recursive filter -/

lemma filterMask_length_le {α : Type} (l : List α) (m : List Bool) :
    (filterMask l m).length ≤ l.length := by
  induction l generalizing m with
  | nil => simp [filterMask]
  | cons a as ih =>
    cases m with
    | nil => simp [filterMask]
    | cons b bs =>
      by_cases hb : b = true
      · simp [filterMask, hb]
        exact ih bs
      · simp at hb
        simp [filterMask, hb]
        exact Nat.le_succ_of_le (ih bs)

lemma outlierFilterAux_fuel_irrel {α : Type} (colOf : α → ℚ)
    (filtering_f : List ℚ → List Bool) (is_recursive : Bool) :
    ∀ (f1 f2 : ℕ) (df : List α), df.length < f1 → df.length < f2 →
      outlierFilterAux colOf filtering_f is_recursive f1 df
      = outlierFilterAux colOf filtering_f is_recursive f2 df := by
  intro f1
  induction f1 with
  | zero => intro f2 df h1; omega
  | succ g ih =>
    intro f2 df h1 h2
    cases f2 with
    | zero => omega
    | succ g2 =>
      by_cases hrec : is_recursive = true
      · subst hrec
        by_cases hlen : df.length = (filterMask df (filtering_f (df.map colOf))).length
        · simp [outlierFilterAux, hlen]
        · have hlt : (filterMask df (filtering_f (df.map colOf))).length < df.length :=
            lt_of_le_of_ne (filterMask_length_le _ _) (fun hc => hlen hc.symm)
          simp only [outlierFilterAux, if_pos rfl, if_neg hlen]
          apply ih
          · omega
          · omega
      · have hrec2 : is_recursive = false := by
          cases is_recursive
          · rfl
          · exact absurd rfl hrec
        subst hrec2
        simp [outlierFilterAux]

/-- The function `outlier_filtering` satisfies the recursion equation of the source
verbatim: filter once; in recursive mode return the result if no row was
removed and otherwise recurse on it; in non-recursive mode return it. -/
lemma outlier_filtering_unfold {α : Type} (df : List α) (colOf : α → ℚ)
    (filtering_f : List ℚ → List Bool) (is_recursive : Bool) :
    outlier_filtering df colOf filtering_f is_recursive
    = (let df2 := filterMask df (filtering_f (df.map colOf))
       if is_recursive then
         if df.length = df2.length then df2
         else outlier_filtering df2 colOf filtering_f is_recursive
       else df2) := by
  by_cases hrec : is_recursive = true
  · subst hrec
    by_cases hlen : df.length = (filterMask df (filtering_f (df.map colOf))).length
    · simp [outlier_filtering, outlierFilterAux, hlen]
    · have hlt : (filterMask df (filtering_f (df.map colOf))).length < df.length :=
        lt_of_le_of_ne (filterMask_length_le _ _) (fun hc => hlen hc.symm)
      show outlierFilterAux colOf filtering_f true (df.length + 1) df = _
      simp only [outlierFilterAux, if_pos rfl, if_neg hlen]
      show _ = outlierFilterAux colOf filtering_f true
        ((filterMask df (filtering_f (df.map colOf))).length + 1)
        (filterMask df (filtering_f (df.map colOf)))
      apply outlierFilterAux_fuel_irrel
      · omega
      · omega
  · have hrec2 : is_recursive = false := by
      cases is_recursive
      · rfl
      · exact absurd rfl hrec
    subst hrec2
    simp [outlier_filtering, outlierFilterAux]

lemma filterMask_sublist {α : Type} (l : List α) (m : List Bool) :
    (filterMask l m).Sublist l := by
  induction l generalizing m with
  | nil => simp [filterMask]
  | cons a as ih =>
    cases m with
    | nil => simp [filterMask]
    | cons b bs =>
      by_cases hb : b = true
      · simpa [filterMask, hb] using (ih bs).cons₂ a
      · simp only [Bool.not_eq_true] at hb
        simpa [filterMask, hb] using (ih bs).cons a

lemma filterMask_eq_self_of_length {α : Type} (l : List α) (m : List Bool)
    (h : (filterMask l m).length = l.length) : filterMask l m = l := by
  induction l generalizing m with
  | nil => simp [filterMask]
  | cons a as ih =>
    cases m with
    | nil => simp [filterMask] at h
    | cons b bs =>
      by_cases hb : b = true
      · simp only [filterMask, hb, if_true, List.length_cons] at h ⊢
        rw [ih bs (by omega)]
      · simp only [Bool.not_eq_true] at hb
        simp only [filterMask, hb, Bool.false_eq_true, if_false, List.length_cons] at h
        have := filterMask_length_le as bs
        omega

lemma outlier_filtering_sublist {α : Type} (df : List α) (colOf : α → ℚ)
    (filtering_f : List ℚ → List Bool) (is_recursive : Bool) :
    (outlier_filtering df colOf filtering_f is_recursive).Sublist df := by
  suffices H : ∀ (n : ℕ) (df : List α), df.length ≤ n →
      (outlier_filtering df colOf filtering_f is_recursive).Sublist df from
    H df.length df le_rfl
  intro n
  induction n with
  | zero =>
    intro df h
    have : df = [] := List.eq_nil_of_length_eq_zero (Nat.le_zero.mp h)
    subst this
    rw [outlier_filtering_unfold]
    cases is_recursive <;> simp [filterMask]
  | succ n ih =>
    intro df hlen
    rw [outlier_filtering_unfold]
    by_cases hrec : is_recursive = true
    · subst hrec
      by_cases hl : df.length = (filterMask df (filtering_f (df.map colOf))).length
      · simpa [hl] using filterMask_sublist df (filtering_f (df.map colOf))
      · have hlt : (filterMask df (filtering_f (df.map colOf))).length < df.length :=
          lt_of_le_of_ne (filterMask_length_le _ _) (fun hc => hl hc.symm)
        simp only [if_pos rfl, if_neg hl]
        exact (ih (filterMask df (filtering_f (df.map colOf))) (by omega)).trans
          (filterMask_sublist df (filtering_f (df.map colOf)))
    · have hrec2 : is_recursive = false := by
        cases is_recursive
        · rfl
        · exact absurd rfl hrec
      subst hrec2
      simpa using filterMask_sublist df (filtering_f (df.map colOf))

lemma outlier_filtering_fixed {α : Type} (df : List α) (colOf : α → ℚ)
    (filtering_f : List ℚ → List Bool) :
    filterMask (outlier_filtering df colOf filtering_f true)
      (filtering_f ((outlier_filtering df colOf filtering_f true).map colOf))
    = outlier_filtering df colOf filtering_f true := by
  suffices H : ∀ (n : ℕ) (df : List α), df.length ≤ n →
      filterMask (outlier_filtering df colOf filtering_f true)
        (filtering_f ((outlier_filtering df colOf filtering_f true).map colOf))
      = outlier_filtering df colOf filtering_f true from
    H df.length df le_rfl
  intro n
  induction n with
  | zero =>
    intro df h
    have : df = [] := List.eq_nil_of_length_eq_zero (Nat.le_zero.mp h)
    subst this
    rw [outlier_filtering_unfold]
    simp [filterMask]
  | succ n ih =>
    intro df hlen
    rw [outlier_filtering_unfold]
    by_cases hl : df.length = (filterMask df (filtering_f (df.map colOf))).length
    · simp only [if_pos rfl, if_pos hl]
      have heq : filterMask df (filtering_f (df.map colOf)) = df :=
        filterMask_eq_self_of_length df _ hl.symm
      rw [heq]
      exact heq
    · have hlt : (filterMask df (filtering_f (df.map colOf))).length < df.length :=
        lt_of_le_of_ne (filterMask_length_le _ _) (fun hc => hl hc.symm)
      simp only [if_pos rfl, if_neg hl]
      exact ih (filterMask df (filtering_f (df.map colOf))) (by omega)

/-! ### Lemmas about grouping -/

lemma groupby_keys_nodup {α : Type} (key : α → ℚ) (l : List α) :
    (List.insertionSort (· ≤ ·) ((l.map key).dedup)).Nodup :=
  ((List.perm_insertionSort _ _).nodup_iff).mpr (List.nodup_dedup _)

lemma mem_sortKeys {α : Type} (key : α → ℚ) (l : List α) (k : ℚ) :
    k ∈ List.insertionSort (· ≤ ·) ((l.map key).dedup) ↔ k ∈ l.map key := by
  rw [(List.perm_insertionSort _ _).mem_iff, List.mem_dedup]

lemma flatten_map_keys {β : Type} (u : ℚ) (A : ℚ → List β)
    (hA : ∀ k, k ≠ u → A k = []) :
    ∀ (keys : List ℚ), keys.Nodup →
      (keys.map A).flatten = if u ∈ keys then A u else [] := by
  intro keys
  induction keys with
  | nil => simp
  | cons k ks ih =>
    intro hnd
    have hnd2 : ks.Nodup := (List.nodup_cons.mp hnd).2
    by_cases hk : k = u
    · subst hk
      have hnotmem : k ∉ ks := (List.nodup_cons.mp hnd).1
      simp [ih hnd2, hnotmem]
    · by_cases hu : u ∈ ks
      · simp [hA k hk, ih hnd2, hu, List.mem_cons]
      · have hu2 : u ∉ k :: ks := by
          simp only [List.mem_cons]
          rintro (h | h)
          · exact hk h.symm
          · exact hu h
        simp [hA k hk, ih hnd2, hu, hu2]

lemma groupby_flatten_single {α β : Type} (key : α → ℚ) (l : List α) (u : ℚ)
    (G : ℚ × List α → List β)
    (hG : ∀ k, k ≠ u → G (k, l.filter (fun x => key x = k)) = []) :
    ((groupby key l).map G).flatten
    = if u ∈ l.map key then G (u, l.filter (fun x => key x = u)) else [] := by
  unfold groupby
  rw [List.map_map]
  have h1 := flatten_map_keys u (fun k => G (k, l.filter (fun x => key x = k)))
    (fun k hk => hG k hk)
    (List.insertionSort (· ≤ ·) ((l.map key).dedup)) (groupby_keys_nodup key l)
  rw [show (G ∘ fun k => (k, l.filter (fun x => key x = k)))
      = (fun k => G (k, l.filter (fun x => key x = k))) from rfl]
  rw [h1]
  by_cases hm : u ∈ l.map key
  · rw [if_pos ((mem_sortKeys key l u).mpr hm), if_pos hm]
  · rw [if_neg (fun hc => hm ((mem_sortKeys key l u).mp hc)), if_neg hm]

lemma keys_filter_eq (keys : List ℚ) (hnd : keys.Nodup) (k0 : ℚ) :
    keys.filter (fun k => k = k0) = if k0 ∈ keys then [k0] else [] := by
  induction keys with
  | nil => simp
  | cons k ks ih =>
    have hnd2 : ks.Nodup := (List.nodup_cons.mp hnd).2
    by_cases hk : k = k0
    · subst hk
      have hnotmem : k ∉ ks := (List.nodup_cons.mp hnd).1
      have hnil : ks.filter (fun a => a = k) = [] :=
        List.filter_eq_nil_iff.mpr (fun a ha => by
          simp only [decide_eq_true_eq]
          rintro rfl
          exact hnotmem ha)
      simp [List.filter_cons, hnil]
    · by_cases hu : k0 ∈ ks
      · simp [List.filter_cons, hk, ih hnd2, hu, List.mem_cons]
      · have hu2 : k0 ∉ k :: ks := by
          simp only [List.mem_cons]
          rintro (h | h)
          · exact hk h.symm
          · exact hu h
        simp [List.filter_cons, hk, ih hnd2, hu, hu2]

lemma groupby_filter_key {α : Type} (key : α → ℚ) (l : List α) (k0 : ℚ) :
    (groupby key l).filter (fun kv => kv.1 = k0)
    = if k0 ∈ l.map key then [(k0, l.filter (fun x => key x = k0))] else [] := by
  unfold groupby
  rw [List.filter_map]
  rw [show ((fun kv : ℚ × List α => decide (kv.1 = k0))
      ∘ (fun k => (k, l.filter (fun x => key x = k))))
      = (fun k => decide (k = k0)) from rfl]
  rw [keys_filter_eq _ (groupby_keys_nodup key l) k0]
  by_cases hm : k0 ∈ l.map key
  · rw [if_pos ((mem_sortKeys key l k0).mpr hm), if_pos hm]
    simp
  · rw [if_neg (fun hc => hm ((mem_sortKeys key l k0).mp hc)), if_neg hm]
    simp

lemma decide_and_eq (p q : Prop) [Decidable p] [Decidable q] :
    decide (p ∧ q) = (decide p && decide q) := by
  by_cases hp : p <;> by_cases hq : q <;> simp [hp, hq]

/-- Filtering and projecting the flattened per-group results keeps, for a
predicate that can only hold inside the group of key `u`, exactly that
group's filtered results. -/
lemma map_filter_flatten_single {α β γ : Type} (key : α → ℚ) (l : List α)
    (u : ℚ) (F : ℚ × List α → List β) (p : β → Bool) (g : β → γ)
    (hF : ∀ k, k ≠ u → List.filter p (F (k, l.filter (fun x => key x = k))) = []) :
    ((((groupby key l).map F).flatten.filter p).map g)
    = if u ∈ l.map key then
        (List.filter p (F (u, l.filter (fun x => key x = u)))).map g
      else [] := by
  rw [List.filter_flatten, List.map_map, List.map_flatten, List.map_map]
  rw [groupby_flatten_single key l u (List.map g ∘ (List.filter p ∘ F))
    (fun k hk => by simp [Function.comp, hF k hk])]
  by_cases hm : u ∈ l.map key
  · simp [hm, Function.comp]
  · simp [hm]

/-! ### Characterization of the session aggregation -/

lemma gpssCore_filter (df : List MRow) (func : List ℚ → ℚ) (u s : ℚ) :
    ((gpssCore df func).filter
        (fun r => decide (r.user_id = u ∧ r.session = s))).map MRow.response_time
    = if df.any (fun r => decide (r.user_id = u ∧ r.session = s)) then
        [func ((df.filter
          (fun r => decide (r.user_id = u ∧ r.session = s))).map MRow.response_time)]
      else [] := by
  unfold gpssCore
  rw [map_filter_flatten_single MRow.user_id df u _ _ MRow.response_time ?hF]
  case hF =>
    intro k hk
    rw [List.filter_map]
    have hnil : ((groupby MRow.session
        (df.filter (fun x => MRow.user_id x = k))).filter
        ((fun r => decide (r.user_id = u ∧ r.session = s)) ∘ (fun kv1 =>
          ({ user_id := k, session := kv1.1,
             response_time := func (kv1.2.map MRow.response_time) } : MRow)))) = [] := by
      apply List.filter_eq_nil_iff.mpr
      intro kv1 _
      simp only [Function.comp_apply, decide_eq_true_eq, not_and]
      intro hc
      exact absurd hc hk
    rw [hnil]
    simp
  by_cases hm : u ∈ df.map MRow.user_id
  · rw [if_pos hm]
    rw [List.filter_map]
    have hpred : (((fun r => decide (r.user_id = u ∧ r.session = s)) ∘ (fun kv1 =>
        ({ user_id := u, session := kv1.1,
           response_time := func (kv1.2.map MRow.response_time) } : MRow))))
        = (fun kv1 : ℚ × List MRow => decide (kv1.1 = s)) := by
      funext kv1
      simp
    rw [hpred, groupby_filter_key MRow.session _ s]
    by_cases hs : s ∈ (df.filter (fun x => decide (MRow.user_id x = u))).map MRow.session
    · rw [if_pos hs]
      have hany : df.any (fun r => decide (r.user_id = u ∧ r.session = s)) = true := by
        rw [List.any_eq_true]
        rcases List.mem_map.mp hs with ⟨r, hr, hrs⟩
        rcases List.mem_filter.mp hr with ⟨hrdf, hru⟩
        exact ⟨r, hrdf, by
          simp only [decide_eq_true_eq] at hru ⊢
          exact ⟨hru, hrs⟩⟩
      rw [if_pos hany]
      have hgroup : ((df.filter (fun x => decide (MRow.user_id x = u))).filter
          (fun x => decide (MRow.session x = s)))
          = df.filter (fun r => decide (r.user_id = u ∧ r.session = s)) := by
        rw [List.filter_filter]
        apply List.filter_congr
        intro r _
        rw [decide_and_eq, Bool.and_comm]
      simp [hgroup]
    · rw [if_neg hs]
      have hany : ¬ df.any (fun r => decide (r.user_id = u ∧ r.session = s)) = true := by
        rw [List.any_eq_true]
        rintro ⟨r, hrdf, hrp⟩
        simp only [decide_eq_true_eq] at hrp
        exact hs (List.mem_map.mpr ⟨r,
          List.mem_filter.mpr ⟨hrdf, by simp [hrp.1]⟩, hrp.2⟩)
      rw [if_neg hany]
      simp
  · rw [if_neg hm]
    have hany : ¬ df.any (fun r => decide (r.user_id = u ∧ r.session = s)) = true := by
      rw [List.any_eq_true]
      rintro ⟨r, hrdf, hrp⟩
      simp only [decide_eq_true_eq] at hrp
      exact hm (List.mem_map.mpr ⟨r, hrdf, hrp.1⟩)
    rw [if_neg hany]

/-! ### Lemmas about indexed rows -/

lemma enumFrom_filter_fst {α : Type} (l : List α) :
    ∀ (n i : ℕ) (r : α), l.get? i = some r →
      (List.enumFrom n l).filter (fun p => p.1 = n + i) = [(n + i, r)] := by
  induction l with
  | nil => intro n i r h; simp at h
  | cons a as ih =>
    intro n i r h
    cases i with
    | zero =>
      simp only [List.get?] at h
      injection h with h
      subst h
      rw [List.enumFrom_cons, List.filter_cons]
      simp only [Nat.add_zero, decide_True]
      have hnil : (List.enumFrom (n + 1) as).filter (fun p => p.1 = n) = [] := by
        apply List.filter_eq_nil_iff.mpr
        rintro ⟨p1, p2⟩ hp
        have hb := (List.mem_enumFrom hp).1
        simp only [decide_eq_true_eq]
        omega
      simp [hnil]
    | succ j =>
      simp only [List.get?] at h
      rw [List.enumFrom_cons, List.filter_cons]
      have hhead : ¬ (n = n + (j + 1)) := by omega
      simp only [hhead, decide_False]
      have harith : n + (j + 1) = (n + 1) + j := by omega
      simp only [harith]
      exact ih (n + 1) j r h

lemma enum_filter_fst {α : Type} (l : List α) (i : ℕ) (r : α)
    (h : l.get? i = some r) :
    l.enum.filter (fun p => p.1 = i) = [(i, r)] := by
  have := enumFrom_filter_fst l 0 i r h
  simpa [List.enum_eq_enumFrom] using this

lemma enumFrom_filter_snd_map {α : Type} (q : α → Bool) (l : List α) :
    ∀ n, ((List.enumFrom n l).filter (fun p => q p.2)).map Prod.snd
      = l.filter q := by
  induction l with
  | nil => intro n; simp
  | cons a as ih =>
    intro n
    rw [List.enumFrom_cons, List.filter_cons, List.filter_cons]
    by_cases hq : q a = true
    · simp only [hq, if_true, List.map_cons]
      rw [ih (n + 1)]
    · simp only [Bool.not_eq_true] at hq
      simp only [hq, Bool.false_eq_true, if_false]
      rw [ih (n + 1)]

lemma enum_mem_of_get {α : Type} (l : List α) (i : ℕ) (r : α)
    (h : l.get? i = some r) : (i, r) ∈ l.enum := by
  have h1 := enum_filter_fst l i r h
  have : (i, r) ∈ l.enum.filter (fun p => p.1 = i) := by
    rw [h1]
    exact List.mem_singleton.mpr rfl
  exact List.mem_of_mem_filter this

/-! ### Characterization of the baseline normalization -/

lemma grrtCore_lookup (df : List MRow) (func : List ℚ → ℚ) (i : ℕ) (r : MRow)
    (hget : df.get? i = some r) :
    ((grrtCore df func).filter (fun q => q.1 = i)).map Prod.snd
    = [100 * (func ((df.filter
          (fun x => decide (x.user_id = r.user_id))).map MRow.response_time)
            - r.response_time)
        / func ((df.filter
          (fun x => decide (x.user_id = r.user_id))).map MRow.response_time)] := by
  unfold grrtCore
  rw [map_filter_flatten_single (fun p => p.2.user_id) df.enum r.user_id _ _
    Prod.snd ?hF]
  case hF =>
    intro k hk
    rw [List.filter_map]
    have hswap : (df.enum.filter (fun x => decide (x.2.user_id = k))).filter
        ((fun q : ℕ × ℚ => decide (q.1 = i)) ∘ (fun p : ℕ × MRow =>
          (p.1, 100 * (func (((df.enum.filter (fun x => decide (x.2.user_id = k))).map
              (fun q => q.2.response_time))) - p.2.response_time)
            / func (((df.enum.filter (fun x => decide (x.2.user_id = k))).map
              (fun q => q.2.response_time)))))) = [] := by
      have hcomp : ((fun q : ℕ × ℚ => decide (q.1 = i)) ∘ (fun p : ℕ × MRow =>
          (p.1, 100 * (func (((df.enum.filter (fun x => decide (x.2.user_id = k))).map
              (fun q => q.2.response_time))) - p.2.response_time)
            / func (((df.enum.filter (fun x => decide (x.2.user_id = k))).map
              (fun q => q.2.response_time))))))
          = (fun p : ℕ × MRow => decide (p.1 = i)) := rfl
      rw [hcomp, List.filter_comm, enum_filter_fst df i r hget, List.filter_cons]
      have : ¬ ((i, r).2.user_id = k) := fun hc => hk (hc ▸ rfl)
      simp [this]
    rw [hswap]
    simp
  have hmem : r.user_id ∈ df.enum.map (fun p => p.2.user_id) :=
    List.mem_map.mpr ⟨(i, r), enum_mem_of_get df i r hget, rfl⟩
  rw [if_pos hmem]
  rw [List.filter_map]
  have hcomp : ((fun q : ℕ × ℚ => decide (q.1 = i)) ∘ (fun p : ℕ × MRow =>
      (p.1, 100 * (func (((df.enum.filter
          (fun x => decide (x.2.user_id = r.user_id))).map
          (fun q => q.2.response_time))) - p.2.response_time)
        / func (((df.enum.filter (fun x => decide (x.2.user_id = r.user_id))).map
          (fun q => q.2.response_time))))))
      = (fun p : ℕ × MRow => decide (p.1 = i)) := rfl
  rw [hcomp, List.filter_comm, enum_filter_fst df i r hget, List.filter_cons]
  have hru : ((i, r).2.user_id = r.user_id) := rfl
  simp only [hru, decide_True, if_true, List.filter_nil, List.map_cons,
    List.map_nil]
  have hxs : ((df.enum.filter (fun x => decide (x.2.user_id = r.user_id))).map
      (fun q => q.2.response_time))
      = (df.filter (fun x => decide (x.user_id = r.user_id))).map
          MRow.response_time := by
    have h1 : ((df.enum.filter (fun x => decide (x.2.user_id = r.user_id))).map
        Prod.snd) = df.filter (fun x => decide (x.user_id = r.user_id)) := by
      have := enumFrom_filter_snd_map
        (fun x : MRow => decide (x.user_id = r.user_id)) df 0
      simpa [List.enum_eq_enumFrom] using this
    calc ((df.enum.filter (fun x => decide (x.2.user_id = r.user_id))).map
        (fun q => q.2.response_time))
        = (((df.enum.filter (fun x => decide (x.2.user_id = r.user_id))).map
            Prod.snd).map MRow.response_time) := by
          rw [List.map_map]
          rfl
      _ = (df.filter (fun x => decide (x.user_id = r.user_id))).map
            MRow.response_time := by rw [h1]
  rw [hxs]

/-! ### The SD window in real arithmetic -/

lemma sampleVar_nonneg (col : List ℚ) : 0 ≤ sampleVar col := by
  by_cases h : col.length = 0
  · have : col = [] := List.eq_nil_of_length_eq_zero h
    subst this
    simp [sampleVar]
  · apply div_nonneg
    · apply List.sum_nonneg
      intro x hx
      rcases List.mem_map.mp hx with ⟨z, _, rfl⟩
      exact sq_nonneg _
    · have h1 : 1 ≤ col.length := Nat.one_le_iff_ne_zero.mpr h
      have h2 : (1 : ℚ) ≤ (col.length : ℚ) := by exact_mod_cast h1
      linarith

/-- The exact rational encoding of the SD window agrees with the
real-number window `mean - factor * sd < z < mean + factor * sd`, where
`sd` is the square root of the sample variance, for every rational
factor (for a negative factor both sides are false). -/
lemma sd_window_encoding (col : List ℚ) (factor z : ℚ) :
    (0 ≤ factor ∧ (z - npMean col) ^ 2 < factor ^ 2 * sampleVar col)
    ↔ ((npMean col : ℝ) - (factor : ℝ) * Real.sqrt (sampleVar col) < (z : ℝ)
       ∧ (z : ℝ) < (npMean col : ℝ) + (factor : ℝ) * Real.sqrt (sampleVar col)) := by
  have hv : (0 : ℝ) ≤ ((sampleVar col : ℚ) : ℝ) := by
    rw [Rat.cast_nonneg]
    exact sampleVar_nonneg col
  have hs : Real.sqrt (sampleVar col) ^ 2 = ((sampleVar col : ℚ) : ℝ) :=
    Real.sq_sqrt hv
  have hsn : (0 : ℝ) ≤ Real.sqrt (sampleVar col) := Real.sqrt_nonneg _
  constructor
  · rintro ⟨hf, hlt⟩
    have hf' : (0 : ℝ) ≤ (factor : ℝ) := by exact_mod_cast hf
    have hlt' : ((z : ℝ) - (npMean col : ℝ)) ^ 2
        < (factor : ℝ) ^ 2 * ((sampleVar col : ℚ) : ℝ) := by
      have := (Rat.cast_lt (K := ℝ)).mpr hlt
      push_cast at this
      convert this using 2
    constructor
    · nlinarith [mul_nonneg hf' hsn, hs, hlt']
    · nlinarith [mul_nonneg hf' hsn, hs, hlt']
  · rintro ⟨h1, h2⟩
    have hf : (0 : ℝ) ≤ (factor : ℝ) := by
      by_contra hneg
      push_neg at hneg
      nlinarith [mul_nonneg (neg_nonneg.mpr (le_of_lt hneg)) hsn]
    have hlt' : ((z : ℝ) - (npMean col : ℝ)) ^ 2
        < (factor : ℝ) ^ 2 * ((sampleVar col : ℚ) : ℝ) := by
      nlinarith [hs]
    constructor
    · exact_mod_cast hf
    · have : ((z - npMean col) ^ 2 : ℚ) < (factor ^ 2 * sampleVar col : ℚ) := by
        rw [← Rat.cast_lt (K := ℝ)]
        push_cast
        convert hlt' using 2
      exact this

/-! ### Degenerate statistics: constant and singleton columns -/

lemma npMean_singleton (x : ℚ) : npMean [x] = x := by
  simp [npMean]

lemma npMedian_singleton (x : ℚ) : npMedian [x] = x := by
  simp [npMedian, List.insertionSort, List.orderedInsert]

lemma npMean_of_all_eq (l : List ℚ) (c : ℚ) (hne : l ≠ [])
    (h : ∀ x ∈ l, x = c) : npMean l = c := by
  have hrep : l = List.replicate l.length c :=
    List.eq_replicate_iff.mpr ⟨rfl, h⟩
  have hsum : l.sum = (l.length : ℚ) * c := by
    conv_lhs => rw [hrep]
    rw [List.sum_replicate, nsmul_eq_mul]
  have hlen : (l.length : ℚ) ≠ 0 := by
    have : l.length ≠ 0 := fun hc => hne (List.eq_nil_of_length_eq_zero hc)
    exact_mod_cast this
  rw [npMean, hsum, mul_comm, mul_div_assoc, div_self hlen, mul_one]

lemma sampleVar_of_all_eq (l : List ℚ) (c : ℚ) (h : ∀ x ∈ l, x = c) :
    sampleVar l = 0 := by
  by_cases hne : l = []
  · subst hne
    simp [sampleVar]
  · have hm := npMean_of_all_eq l c hne h
    have hz : (l.map (fun z => (z - npMean l) ^ 2)).sum = 0 := by
      apply List.sum_eq_zero
      intro x hx
      rcases List.mem_map.mp hx with ⟨z, hz, rfl⟩
      rw [hm, h z hz]
      ring
    rw [sampleVar, hz, zero_div]

lemma sd_mask_all_eq (l : List ℚ) (c : ℚ) (factor : ℚ) (h : ∀ x ∈ l, x = c) :
    sd_based_outlier_filtering l factor = List.replicate l.length false := by
  unfold sd_based_outlier_filtering
  rw [List.eq_replicate_iff]
  refine ⟨List.length_map _ _, ?_⟩
  intro b hb
  rcases List.mem_map.mp hb with ⟨z, hzl, rfl⟩
  have hvar := sampleVar_of_all_eq l c h
  have hmean := npMean_of_all_eq l c (List.ne_nil_of_mem hzl) h
  rw [hvar, hmean, h z hzl]
  simp

lemma filterMask_all_false {α : Type} (l : List α) :
    filterMask l (List.replicate l.length false) = [] := by
  induction l with
  | nil => simp [filterMask]
  | cons a as ih => simpa [List.replicate, filterMask] using ih

lemma outlier_filtering_nil {α : Type} (colOf : α → ℚ)
    (filtering_f : List ℚ → List Bool) (is_recursive : Bool) :
    outlier_filtering ([] : List α) colOf filtering_f is_recursive = [] := by
  rw [outlier_filtering_unfold]
  cases is_recursive <;> simp [filterMask]

lemma outlier_filtering_sd_all_eq {α : Type} (df : List α) (colOf : α → ℚ)
    (c factor : ℚ) (h : ∀ r ∈ df, colOf r = c) :
    outlier_filtering df colOf
      (fun cl => sd_based_outlier_filtering cl factor) true = [] := by
  rw [outlier_filtering_unfold]
  have hmask : sd_based_outlier_filtering (df.map colOf) factor
      = List.replicate df.length false := by
    have := sd_mask_all_eq (df.map colOf) c factor (by
      intro x hx
      rcases List.mem_map.mp hx with ⟨r, hr, rfl⟩
      exact h r hr)
    simpa using this
  simp only [hmask, filterMask_all_false]
  cases df with
  | nil => simp
  | cons a as =>
    have : ¬ ((a :: as).length = ([] : List α).length) := by simp
    simp only [this, if_false, if_pos rfl]
    exact outlier_filtering_nil colOf _ true

lemma sd_mask_singleton (v factor : ℚ) :
    sd_based_outlier_filtering [v] factor = [false] := by
  have := sd_mask_all_eq [v] v factor (by intro x hx; simpa using hx)
  simpa using this

lemma outlier_filtering_sd_singleton {α : Type} (x : α) (colOf : α → ℚ)
    (factor : ℚ) :
    outlier_filtering [x] colOf
      (fun cl => sd_based_outlier_filtering cl factor) true = [] :=
  outlier_filtering_sd_all_eq [x] colOf (colOf x) factor
    (by intro r hr; simp at hr; rw [hr])

/-! ### Statistic-name dispatch lemmas -/

lemma get_pvt_score_per_session_median (df : List MRow) :
    get_pvt_score_per_session df "median" = Except.ok (gpssCore df npMedian) := by
  simp [get_pvt_score_per_session]

lemma get_pvt_score_per_session_mean (df : List MRow) :
    get_pvt_score_per_session df "mean" = Except.ok (gpssCore df npMean) := by
  simp [get_pvt_score_per_session]

lemma get_relative_response_time_mean (df : List MRow) :
    get_relative_response_time df "mean" = Except.ok (grrtCore df npMean) := by
  simp [get_relative_response_time]

lemma get_relative_response_time_median (df : List MRow) :
    get_relative_response_time df "median" = Except.ok (grrtCore df npMedian) := by
  simp [get_relative_response_time]

lemma statFn_median : statFn "median" = npMedian := by simp [statFn]

lemma statFn_mean : statFn "mean" = npMean := by simp [statFn]

lemma get_pvt_dispatch (df : List MRow) (s : String)
    (h : s = "median" ∨ s = "mean") :
    get_pvt_score_per_session df s = Except.ok (gpssCore df (statFn s)) := by
  rcases h with h | h <;> subst h
  · rw [get_pvt_score_per_session_median, statFn_median]
  · rw [get_pvt_score_per_session_mean, statFn_mean]

lemma grrt_dispatch (df : List MRow) (s : String)
    (h : s = "mean" ∨ s = "median") :
    get_relative_response_time df s = Except.ok (grrtCore df (statFn s)) := by
  rcases h with h | h <;> subst h
  · rw [get_relative_response_time_mean, statFn_mean]
  · rw [get_relative_response_time_median, statFn_median]

lemma groupby_mem {α : Type} (key : α → ℚ) (l : List α) (kv : ℚ × List α)
    (h : kv ∈ groupby key l) : kv.2 = l.filter (fun x => key x = kv.1) := by
  unfold groupby at h
  rcases List.mem_map.mp h with ⟨k, _, rfl⟩
  rfl

-- scratch sanity checks against the repository's unit tests (pvt_test.py)
example :
    outlier_filtering ([11171, 119425, 541/2, 250, 517/2] : List ℚ) id
      (fun c => sd_based_outlier_filtering c (6/5)) true
    = [541/2, 250, 517/2] := by
  norm_num [outlier_filtering, outlierFilterAux, filterMask,
    sd_based_outlier_filtering, npMean, sampleVar]

example :
    outlier_filtering ([11171, 119425, 541/2, 250, 517/2] : List ℚ) id
      (fun c => sd_based_outlier_filtering c 2) true
    = [11171, 119425, 541/2, 250, 517/2] := by
  norm_num [outlier_filtering, outlierFilterAux, filterMask,
    sd_based_outlier_filtering, npMean, sampleVar]

example :
    outlier_filtering ([11171, 119425, 541/2, 250, 517/2] : List ℚ) id
      (fun c => c.map (fun z => decide (z ≤ 250))) true
    = [250] := by
  norm_num [outlier_filtering, outlierFilterAux, filterMask]

example :
    get_pvt_score_per_session
      [⟨1, 1, 10⟩, ⟨1, 1, 20⟩, ⟨1, 1, 25⟩, ⟨1, 2, 40⟩, ⟨2, 100, 60⟩] "median"
    = Except.ok [⟨1, 1, 20⟩, ⟨1, 2, 40⟩, ⟨2, 100, 60⟩] := by
  norm_num [get_pvt_score_per_session, gpssCore, groupby, npMedian,
    List.insertionSort, List.orderedInsert, List.dedup]

example :
    get_pvt_score_per_session
      [⟨1, 1, 10⟩, ⟨1, 1, 20⟩, ⟨1, 1, 25⟩, ⟨1, 2, 40⟩, ⟨2, 100, 60⟩] "mean"
    = Except.ok [⟨1, 1, 55/3⟩, ⟨1, 2, 40⟩, ⟨2, 100, 60⟩] := by
  norm_num [get_pvt_score_per_session, gpssCore, groupby, npMean,
    List.insertionSort, List.orderedInsert, List.dedup]
  all_goals decide

example :
    get_relative_response_time [⟨1, 1, 10⟩, ⟨1, 2, 30⟩] "mean"
    = Except.ok [(0, 50), (1, -50)] := by
  norm_num [get_relative_response_time, grrtCore, groupby, npMean,
    List.insertionSort, List.orderedInsert, List.dedup, List.enum, List.enumFrom]

example :
    process_pvt_named ⟨["uid", "session", "rt"], [[1, 1, 10]]⟩ "rt" "uid"
      (some (5/2)) "median" "mean"
    = Except.error "KeyError: user_id" := by
  simp [process_pvt_named, gpssNamed, Table.getCol, List.findIdx?,
    filterMask, Except.bind, bind, pure, Except.pure]

example :
    process_pvt [⟨1, 1, 10⟩, ⟨1, 2, 30⟩, ⟨1, 3, -5⟩] (some (5/2)) "median" "mean"
    = Except.ok [⟨1, 1, 10, 50⟩, ⟨1, 2, 30, -50⟩] := by
  norm_num [process_pvt, get_pvt_score_per_session, gpssCore,
    get_relative_response_time, grrtCore, groupby, npMean, npMedian,
    List.insertionSort, List.orderedInsert, List.dedup, List.enum, List.enumFrom,
    outlier_filtering, outlierFilterAux, filterMask, sd_based_outlier_filtering,
    sampleVar, alignLookup, Except.bind, bind, pure, Except.pure]

/-- Evaluation of the pipeline with a filtering factor and valid
statistic names: the output table is the filtered score table with the
baseline-normalized series aligned back onto it by row index. -/
lemma process_pvt_ok (df : List MRow) (factor : ℚ) (sf bf : String)
    (hsf : sf = "median" ∨ sf = "mean") (hbf : bf = "mean" ∨ bf = "median") :
    process_pvt df (some factor) sf bf = Except.ok
      ((filteredScores df factor sf).enum.map (fun p =>
        { user_id := p.2.user_id, session := p.2.session,
          response_time := p.2.response_time,
          rrt := (alignLookup p.1
            (grrtCore (filteredScores df factor sf) (statFn bf))).getD 0 })) := by
  simp only [process_pvt, get_pvt_dispatch _ sf hsf, bind, Except.bind]
  rw [grrt_dispatch _ bf hbf]
  rfl

/-! ## Claim theorems -/

/-- C1: `get_pvt_score_per_session` groups rows first by the user-id
column and then by the session column, applies the chosen statistic
(median or mean) to each group's response-time values, and returns a
table with exactly one output row per observed (user_id, session_id)
pair, whose aggregated value is that statistic of the group's values:
for every pair (u, sess), the output rows carrying that pair are exactly
one row with value `statFn s` of the group when the pair occurs in the
input, and none otherwise. -/
theorem claim_C1_session_grouping (df : List MRow) (s : String)
    (h : s = "median" ∨ s = "mean") :
    ∃ out, get_pvt_score_per_session df s = Except.ok out ∧
      ∀ (u sess : ℚ),
        (out.filter (fun r => decide (r.user_id = u ∧ r.session = sess))).map
            MRow.response_time
        = if df.any (fun r => decide (r.user_id = u ∧ r.session = sess)) then
            [statFn s ((df.filter
              (fun r => decide (r.user_id = u ∧ r.session = sess))).map
                MRow.response_time)]
          else [] := by
  exact ⟨gpssCore df (statFn s), get_pvt_dispatch df s h,
    fun u sess => gpssCore_filter df (statFn s) u sess⟩

/-- Witness for C1 at the repository's own unit-test table with the
"median" statistic. -/
theorem claim_C1_session_grouping_witness :
    ("median" = "median" ∨ "median" = "mean") ∧
    (∃ out, get_pvt_score_per_session
        [⟨1, 1, 10⟩, ⟨1, 1, 20⟩, ⟨1, 1, 25⟩, ⟨1, 2, 40⟩, ⟨2, 100, 60⟩]
        "median" = Except.ok out ∧
      ∀ (u sess : ℚ),
        (out.filter (fun r => decide (r.user_id = u ∧ r.session = sess))).map
            MRow.response_time
        = if ([⟨1, 1, 10⟩, ⟨1, 1, 20⟩, ⟨1, 1, 25⟩, ⟨1, 2, 40⟩,
              (⟨2, 100, 60⟩ : MRow)]).any
              (fun r => decide (r.user_id = u ∧ r.session = sess)) then
            [statFn "median" ((([⟨1, 1, 10⟩, ⟨1, 1, 20⟩, ⟨1, 1, 25⟩,
              ⟨1, 2, 40⟩, (⟨2, 100, 60⟩ : MRow)]).filter
              (fun r => decide (r.user_id = u ∧ r.session = sess))).map
                MRow.response_time)]
          else []) :=
  ⟨Or.inl rfl, claim_C1_session_grouping
    [⟨1, 1, 10⟩, ⟨1, 1, 20⟩, ⟨1, 1, 25⟩, ⟨1, 2, 40⟩, ⟨2, 100, 60⟩]
    "median" (Or.inl rfl)⟩

/-- C2: `get_relative_response_time` computes one baseline per user
group, equal to the chosen statistic (mean or median) of the whole
group's response values, the row itself included, and the series entry
for each row `x` of the group is `100 * (baseline - x) / baseline`. -/
theorem claim_C2_baseline_per_group (df : List MRow) (s : String)
    (h : s = "mean" ∨ s = "median") :
    ∃ out, get_relative_response_time df s = Except.ok out ∧
      ∀ (i : ℕ) (r : MRow), df.get? i = some r →
        (out.filter (fun q => q.1 = i)).map Prod.snd
        = [100 * (statFn s ((df.filter
              (fun x => decide (x.user_id = r.user_id))).map
                MRow.response_time) - r.response_time)
            / statFn s ((df.filter
              (fun x => decide (x.user_id = r.user_id))).map
                MRow.response_time)] := by
  exact ⟨grrtCore df (statFn s), grrt_dispatch df s h,
    fun i r hget => grrtCore_lookup df (statFn s) i r hget⟩

/-- Witness for C2: two sessions of user 1 and one of user 2, with the
"mean" statistic. -/
theorem claim_C2_baseline_per_group_witness :
    ("mean" = "mean" ∨ "mean" = "median") ∧
    (∃ out, get_relative_response_time
        [⟨1, 1, 10⟩, ⟨1, 2, 30⟩, ⟨2, 5, 40⟩] "mean" = Except.ok out ∧
      ∀ (i : ℕ) (r : MRow),
        ([⟨1, 1, 10⟩, ⟨1, 2, 30⟩, (⟨2, 5, 40⟩ : MRow)]).get? i = some r →
        (out.filter (fun q => q.1 = i)).map Prod.snd
        = [100 * (statFn "mean" ((([⟨1, 1, 10⟩, ⟨1, 2, 30⟩,
              (⟨2, 5, 40⟩ : MRow)]).filter
              (fun x => decide (x.user_id = r.user_id))).map
                MRow.response_time) - r.response_time)
            / statFn "mean" ((([⟨1, 1, 10⟩, ⟨1, 2, 30⟩,
              (⟨2, 5, 40⟩ : MRow)]).filter
              (fun x => decide (x.user_id = r.user_id))).map
                MRow.response_time)]) :=
  ⟨Or.inl rfl, claim_C2_baseline_per_group
    [⟨1, 1, 10⟩, ⟨1, 2, 30⟩, ⟨2, 5, 40⟩] "mean" (Or.inl rfl)⟩

/-- C3: recursive outlier filtering terminates: one round never grows
the table; when a round removes nothing the table is returned unchanged
(the fixed point), and the recursion only continues on a strictly
smaller table; the final result is no longer than the input.  The
recursion equation contains no iteration limit: its only exit is the
fixed-point test. -/
theorem claim_C3_recursive_termination {α : Type} (df : List α)
    (colOf : α → ℚ) (filtering_f : List ℚ → List Bool) :
    ((filterMask df (filtering_f (df.map colOf))).length ≤ df.length)
    ∧ (filterMask df (filtering_f (df.map colOf)) = df
       ∨ (filterMask df (filtering_f (df.map colOf))).length < df.length)
    ∧ (outlier_filtering df colOf filtering_f true
       = (if df.length = (filterMask df (filtering_f (df.map colOf))).length
          then filterMask df (filtering_f (df.map colOf))
          else outlier_filtering (filterMask df (filtering_f (df.map colOf)))
                 colOf filtering_f true))
    ∧ (outlier_filtering df colOf filtering_f true).length ≤ df.length := by
  refine ⟨filterMask_length_le df _, ?_, ?_, ?_⟩
  · by_cases hl : (filterMask df (filtering_f (df.map colOf))).length = df.length
    · exact Or.inl (filterMask_eq_self_of_length df _ hl)
    · exact Or.inr (lt_of_le_of_ne (filterMask_length_le df _) hl)
  · simpa using outlier_filtering_unfold df colOf filtering_f true
  · exact (outlier_filtering_sublist df colOf filtering_f true).length_le

/-- C6: re-applying the SD-based outlier predicate to the output of
recursive outlier filtering removes no row: masking the result with the
predicate of its own column returns it unchanged. -/
theorem claim_C6_idempotent_after_convergence {α : Type} (df : List α)
    (colOf : α → ℚ) (factor : ℚ) :
    filterMask
      (outlier_filtering df colOf
        (fun c => sd_based_outlier_filtering c factor) true)
      (sd_based_outlier_filtering
        ((outlier_filtering df colOf
          (fun c => sd_based_outlier_filtering c factor) true).map colOf)
        factor)
    = outlier_filtering df colOf
        (fun c => sd_based_outlier_filtering c factor) true :=
  outlier_filtering_fixed df colOf (fun c => sd_based_outlier_filtering c factor)

/-- C4: the SD-window mask has the length of the column, and an entry is
`true` exactly when its value lies strictly inside
`(mean - factor * sd, mean + factor * sd)`, with `mean` the column mean
and `sd` the square root of the sample variance; boundary values are
excluded by strictness. -/
theorem claim_C4_window_mask (col : List ℚ) (factor : ℚ) :
    (sd_based_outlier_filtering col factor).length = col.length ∧
    ∀ (i : ℕ) (v : ℚ), col.get? i = some v →
      ((sd_based_outlier_filtering col factor).get? i = some true ↔
        ((npMean col : ℝ) - (factor : ℝ) * Real.sqrt (sampleVar col) < (v : ℝ)
         ∧ (v : ℝ) < (npMean col : ℝ)
             + (factor : ℝ) * Real.sqrt (sampleVar col))) := by
  constructor
  · exact List.length_map col _
  · intro i v hget
    unfold sd_based_outlier_filtering
    rw [List.get?_map, hget]
    simp only [Option.map_some']
    constructor
    · intro hsome
      injection hsome with hsome
      exact (sd_window_encoding col factor v).mp (of_decide_eq_true hsome)
    · intro hbounds
      rw [decide_eq_true ((sd_window_encoding col factor v).mpr hbounds)]

/-- Witness for C4 at the column [0, 1, 2] with factor 1 and index 2. -/
theorem claim_C4_window_mask_witness :
    (([0, 1, 2] : List ℚ).get? 2 = some 2) ∧
    ((sd_based_outlier_filtering [0, 1, 2] 1).get? 2 = some true ↔
      ((npMean [0, 1, 2] : ℝ) - ((1 : ℚ) : ℝ) * Real.sqrt (sampleVar [0, 1, 2])
          < ((2 : ℚ) : ℝ)
       ∧ ((2 : ℚ) : ℝ) < (npMean [0, 1, 2] : ℝ)
           + ((1 : ℚ) : ℝ) * Real.sqrt (sampleVar [0, 1, 2]))) :=
  ⟨rfl, (claim_C4_window_mask [0, 1, 2] 1).2 2 2 rfl⟩

/-- C5 (counterexample): `process_pvt` does not forward its column-name
configuration to the aggregation stage.  On a table whose user and
response columns are named "uid" and "rt" (the session column keeps its
default name, since `process_pvt` has no session-name parameter at all),
calling the pipeline with those overrides fails with a lookup error on
the default name "user_id", coming from the unforwarded
`get_pvt_score_per_session` call, instead of producing the result the
identically-valued default-named table would give. -/
theorem claim_C5_overrides_not_forwarded :
    process_pvt_named ⟨["uid", "session", "rt"], [[1, 1, 10]]⟩ "rt" "uid"
      (some (5/2)) "median" "mean"
    = Except.error "KeyError: user_id" := by
  simp [process_pvt_named, gpssNamed, Table.getCol, List.findIdx?,
    filterMask, Except.bind, bind, pure, Except.pure]

/-- C7: an unrecognized statistic name makes both
`get_pvt_score_per_session` and `get_relative_response_time` fail, for
every input table, with an error message naming the offending value; no
output table is produced for any input. -/
theorem claim_C7_unknown_statistic (df df2 : List MRow) (s : String)
    (h1 : s ≠ "median") (h2 : s ≠ "mean") :
    get_pvt_score_per_session df s
      = Except.error ("Unknown function: " ++ s)
    ∧ get_relative_response_time df2 s
      = Except.error ("Unknown function: " ++ s) := by
  constructor
  · simp [get_pvt_score_per_session, h1, h2]
  · simp [get_relative_response_time, h1, h2]

/-- Witness for C7 with the statistic name "mode". -/
theorem claim_C7_unknown_statistic_witness :
    ("mode" ≠ "median") ∧ ("mode" ≠ "mean") ∧
    (get_pvt_score_per_session [⟨1, 1, 10⟩] "mode"
      = Except.error ("Unknown function: " ++ "mode")
    ∧ get_relative_response_time [⟨1, 1, 10⟩] "mode"
      = Except.error ("Unknown function: " ++ "mode")) :=
  ⟨by decide, by decide,
    claim_C7_unknown_statistic [⟨1, 1, 10⟩] [⟨1, 1, 10⟩] "mode"
      (by decide) (by decide)⟩

/-- C8: on a column whose values are all identical the standard
deviation is zero, hence the threshold `factor * sd` is zero, the strict
open-interval test rejects every value (an all-false mask of full
length), and recursive filtering returns the empty table; no error is
involved, every function involved is total. -/
theorem claim_C8_constant_column {α : Type} (df : List α) (colOf : α → ℚ)
    (c factor : ℚ) (h : ∀ r ∈ df, colOf r = c) :
    Real.sqrt (sampleVar (df.map colOf)) = 0
    ∧ (factor : ℝ) * Real.sqrt (sampleVar (df.map colOf)) = 0
    ∧ sd_based_outlier_filtering (df.map colOf) factor
        = List.replicate df.length false
    ∧ outlier_filtering df colOf
        (fun cl => sd_based_outlier_filtering cl factor) true = [] := by
  have hvar : sampleVar (df.map colOf) = 0 :=
    sampleVar_of_all_eq (df.map colOf) c (by
      intro x hx
      rcases List.mem_map.mp hx with ⟨r, hr, rfl⟩
      exact h r hr)
  have hsqrt : Real.sqrt (sampleVar (df.map colOf)) = 0 := by
    rw [hvar]
    simp
  refine ⟨hsqrt, by rw [hsqrt, mul_zero], ?_, ?_⟩
  · have := sd_mask_all_eq (df.map colOf) c factor (by
      intro x hx
      rcases List.mem_map.mp hx with ⟨r, hr, rfl⟩
      exact h r hr)
    simpa using this
  · exact outlier_filtering_sd_all_eq df colOf c factor h

/-- Witness for C8 at the constant two-element column [5, 5]. -/
theorem claim_C8_constant_column_witness :
    (∀ r ∈ ([5, 5] : List ℚ), id r = 5) ∧
    (Real.sqrt (sampleVar (([5, 5] : List ℚ).map id)) = 0
    ∧ ((5/2 : ℚ) : ℝ) * Real.sqrt (sampleVar (([5, 5] : List ℚ).map id)) = 0
    ∧ sd_based_outlier_filtering (([5, 5] : List ℚ).map id) (5/2)
        = List.replicate ([5, 5] : List ℚ).length false
    ∧ outlier_filtering ([5, 5] : List ℚ) id
        (fun cl => sd_based_outlier_filtering cl (5/2)) true = []) :=
  ⟨by decide, claim_C8_constant_column [5, 5] id 5 (5/2) (by decide)⟩

/-- C9: a user with exactly one session score in the input of the
baseline normalization gets the relative response time 0 for that row,
with either baseline statistic: the singleton group's baseline is the
row's own value, so the deviation is zero. -/
theorem claim_C9_single_session_zero (df : List MRow) (u : ℚ) (i : ℕ)
    (r : MRow) (s : String) (hs : s = "mean" ∨ s = "median")
    (hget : df.get? i = some r) (hu : r.user_id = u)
    (hfilter : df.filter (fun x => decide (x.user_id = u)) = [r]) :
    ∃ out, get_relative_response_time df s = Except.ok out ∧
      (out.filter (fun q => q.1 = i)).map Prod.snd = [0] := by
  refine ⟨grrtCore df (statFn s), grrt_dispatch df s hs, ?_⟩
  rw [grrtCore_lookup df (statFn s) i r hget]
  subst hu
  rw [hfilter]
  have hsingle : statFn s ([r].map MRow.response_time) = r.response_time := by
    rcases hs with hs | hs <;> subst hs
    · rw [statFn_mean]
      exact npMean_singleton r.response_time
    · rw [statFn_median]
      exact npMedian_singleton r.response_time
  rw [hsingle]
  simp

/-- Witness for C9: user 1 has a single session score of value 10. -/
theorem claim_C9_single_session_zero_witness :
    (("mean" = "mean" ∨ "mean" = "median")
    ∧ ([⟨1, 1, 10⟩, ⟨2, 1, 20⟩, (⟨2, 2, 30⟩ : MRow)]).get? 0 = some ⟨1, 1, 10⟩
    ∧ (⟨1, 1, 10⟩ : MRow).user_id = 1
    ∧ ([⟨1, 1, 10⟩, ⟨2, 1, 20⟩, (⟨2, 2, 30⟩ : MRow)]).filter
        (fun x => decide (x.user_id = 1)) = [⟨1, 1, 10⟩])
    ∧ (∃ out, get_relative_response_time
        [⟨1, 1, 10⟩, ⟨2, 1, 20⟩, ⟨2, 2, 30⟩] "mean" = Except.ok out ∧
      (out.filter (fun q => q.1 = 0)).map Prod.snd = [0]) :=
  ⟨⟨Or.inl rfl, by decide, by decide, by decide⟩,
    claim_C9_single_session_zero
      [⟨1, 1, 10⟩, ⟨2, 1, 20⟩, ⟨2, 2, 30⟩] 1 0 ⟨1, 1, 10⟩ "mean"
      (Or.inl rfl) (by decide) (by decide) (by decide)⟩

/-- C10: a single-element column is entirely rejected by the SD window
(pandas produces a NaN standard deviation there, and the strict window
test fails; in the exact embedding the degenerate variance is 0 and the
strict test fails equally), and consequently, when `process_pvt` runs
with a filtering factor, a user with exactly one session score loses
that only row in outlier filtering and is absent from the output. -/
theorem claim_C10_single_score_removed (df : List MRow) (u : ℚ)
    (factor : ℚ) (sf bf : String)
    (hsf : sf = "median" ∨ sf = "mean") (hbf : bf = "mean" ∨ bf = "median")
    (hone : ((gpssCore (df.filter (fun r => decide (0 < r.response_time)))
        (statFn sf)).filter (fun r => decide (r.user_id = u))).length = 1) :
    (∀ v : ℚ, sd_based_outlier_filtering [v] factor = [false]) ∧
    ∃ out, process_pvt df (some factor) sf bf = Except.ok out ∧
      ∀ row ∈ out, row.user_id ≠ u := by
  refine ⟨fun v => sd_mask_singleton v factor,
    ⟨_, process_pvt_ok df factor sf bf hsf hbf, ?_⟩⟩
  intro row hrow
  rcases List.mem_map.mp hrow with ⟨p, hp, rfl⟩
  have hmem : p.2 ∈ filteredScores df factor sf := by
    rcases p with ⟨pi, pr⟩
    have h3 := List.mem_enumFrom
      (by simpa [List.enum_eq_enumFrom] using hp)
    obtain ⟨-, hlt, heq⟩ := h3
    rw [heq]
    exact List.getElem_mem _
  rw [filteredScores] at hmem
  rcases List.mem_flatten.mp hmem with ⟨grp, hgrp, hrowgrp⟩
  rcases List.mem_map.mp hgrp with ⟨kv, hkv, rfl⟩
  have hkv2 : kv.2 = (gpssCore
      (df.filter (fun r => decide (0 < r.response_time)))
      (statFn sf)).filter (fun x => MRow.user_id x = kv.1) :=
    groupby_mem _ _ _ hkv
  by_cases hk : kv.1 = u
  · have hlen1 : kv.2.length = 1 := by
      rw [hkv2, hk]
      exact hone
    rcases List.length_eq_one.mp hlen1 with ⟨x, hx⟩
    rw [hx, outlier_filtering_sd_singleton x MRow.response_time factor]
      at hrowgrp
    exact absurd hrowgrp (List.not_mem_nil _)
  · have hsub := (outlier_filtering_sublist kv.2 MRow.response_time
      (fun c => sd_based_outlier_filtering c factor) true).subset hrowgrp
    rw [hkv2] at hsub
    have huser : p.2.user_id = kv.1 := by
      have := (List.mem_filter.mp hsub).2
      exact of_decide_eq_true this
    show p.2.user_id ≠ u
    rw [huser]
    exact hk

/-- Witness for C10: user 1 has one session, user 2 has three. -/
theorem claim_C10_single_score_removed_witness :
    (("median" = "median" ∨ "median" = "mean")
    ∧ ("mean" = "mean" ∨ "mean" = "median")
    ∧ ((gpssCore (([⟨1, 1, 10⟩, ⟨2, 1, 1⟩, ⟨2, 2, 2⟩,
          (⟨2, 3, 3⟩ : MRow)]).filter (fun r => decide (0 < r.response_time)))
        (statFn "median")).filter
          (fun r => decide (r.user_id = 1))).length = 1)
    ∧ ((∀ v : ℚ, sd_based_outlier_filtering [v] (5/2) = [false]) ∧
      ∃ out, process_pvt [⟨1, 1, 10⟩, ⟨2, 1, 1⟩, ⟨2, 2, 2⟩, ⟨2, 3, 3⟩]
          (some (5/2)) "median" "mean" = Except.ok out ∧
        ∀ row ∈ out, row.user_id ≠ 1) :=
  ⟨⟨Or.inl rfl, Or.inl rfl, by decide⟩,
    claim_C10_single_score_removed
      [⟨1, 1, 10⟩, ⟨2, 1, 1⟩, ⟨2, 2, 2⟩, ⟨2, 3, 3⟩] 1 (5/2) "median" "mean"
      (Or.inl rfl) (Or.inl rfl) (by decide)⟩
